import Mathlib

/-!
Verification development for the OLLIE offline-to-online imitation learning
pipeline (`main.py`).  The data selector, replay buffer and trajectory
splitter are discrete list/array programs and are embedded over `ℚ`/`ℕ`
so that every definition is executable; the neural-network pieces
(discriminator forward pass, training losses) are embedded over `ℝ`
since they involve `log`, `exp` and `sigmoid`.
-/

namespace Ollie

/-! ### Generic array helpers (torch tensor operations on lists) -/

/-- Apply `f` to every element together with its index, starting the index
count at `s`.  `mapIdxFrom f 0 l` is the usual index-aware map; the explicit
start parameter makes the recursion equations convenient. -/
def mapIdxFrom (f : ℕ → α → α) : ℕ → List α → List α
  | _, [] => []
  | s, x :: xs => f s x :: mapIdxFrom f (s + 1) xs

/-- Boolean-mask indexing `l[mask]` (as in `x[mask, :]` on a torch tensor):
keep the entries of `l` at the positions where `mask` is `true`. -/
def maskFilter (mask : List Bool) (l : List α) : List α :=
  match mask, l with
  | true :: ms, x :: xs => x :: maskFilter ms xs
  | false :: ms, _ :: xs => maskFilter ms xs
  | _, _ => []

/-- In-place assignment `t[-1] = v` on a 1-D tensor (identity on the empty
tensor, which never occurs in the pipeline). -/
def setLast : List α → α → List α
  | [], _ => []
  | [_], v => [v]
  | x :: y :: xs, v => x :: setLast (y :: xs) v

/-! ### ReplayBuffer (`main.py` lines 282-343) -/

/-- The columnar transition store.  Columns are torch tensors of row vectors
(`state`, `action`, `next_state` hold feature vectors; the remaining columns
hold one scalar per row, shape `(·, 1)` in the source). -/
structure ReplayBuffer (S A : Type) where
  max_size : ℕ
  ptr : ℕ
  size : ℕ
  state : List S
  action : List A
  next_state : List S
  reward : List ℚ
  not_done : List ℚ
  flag : List ℚ
  weight : List ℚ
  timeout : List ℚ
deriving Repr

/-- `ReplayBuffer.__init__`: pre-allocates every column at length `max_size`
(zeros, except `weight` and `timeout` which are ones) and sets
`ptr = size = 0`.  States and actions are zero vectors of the given
dimensions. -/
def ReplayBuffer.init (state_dim action_dim max_size : ℕ) :
    ReplayBuffer (List ℚ) (List ℚ) where
  max_size := max_size
  ptr := 0
  size := 0
  state := List.replicate max_size (List.replicate state_dim 0)
  action := List.replicate max_size (List.replicate action_dim 0)
  next_state := List.replicate max_size (List.replicate state_dim 0)
  reward := List.replicate max_size 0
  not_done := List.replicate max_size 0
  flag := List.replicate max_size 0
  weight := List.replicate max_size 1
  timeout := List.replicate max_size 1

/-- One row of the batch returned by `ReplayBuffer.sample`. -/
structure BatchRow (S A : Type) where
  state : S
  action : A
  next_state : S
  reward : ℚ
  not_done : ℚ
  flag : ℚ
  weight : ℚ
  timeout : ℚ
deriving Repr

/-- Read row `i` of every column (torch advanced indexing `col[ind]`). -/
def ReplayBuffer.row [Inhabited S] [Inhabited A] (b : ReplayBuffer S A) (i : ℕ) :
    BatchRow S A where
  state := b.state.getD i default
  action := b.action.getD i default
  next_state := b.next_state.getD i default
  reward := b.reward.getD i 0
  not_done := b.not_done.getD i 0
  flag := b.flag.getD i 0
  weight := b.weight.getD i 0
  timeout := b.timeout.getD i 0

/-- `torch.randint(lo, hi, (k,))`: `k` integers uniform in `[lo, hi)`.
The backing kernel `random_` checks `from < to` and raises otherwise; the
random source is modelled as an oracle `rng`, reduced into the requested
range (only membership in the range matters for the safety claims). -/
def torchRandint (lo hi k : ℕ) (rng : ℕ → ℕ) : Except String (List ℕ) :=
  if lo < hi then
    Except.ok ((List.range k).map (fun i => lo + rng i % (hi - lo)))
  else
    Except.error "RuntimeError: random_ expects from to be less than to"

/-- `ReplayBuffer.sample`: draw `batch_size` indices from `[0, size)` and
return the corresponding rows of every column. -/
def ReplayBuffer.sample [Inhabited S] [Inhabited A] (b : ReplayBuffer S A)
    (batch_size : ℕ) (rng : ℕ → ℕ) : Except String (List (BatchRow S A)) :=
  (torchRandint 0 b.size batch_size rng).map (fun ind => ind.map b.row)

/-! ### Data selector (`Model.select_data`, `main.py` lines 493-525)

The fitted discriminator enters the selector only through score
comparisons against `bar`, so it is abstracted here as its score function
`d : S → A → ℚ` (by `Discriminator.forward`'s clipping, scores lie in
`[0.1, 0.9]`; none of the selector's claims depend on that). -/

/-- Slice assignment `index[a : b] = False` on a 1-D bool tensor. -/
def setFalseSlice (a b : ℕ) (idx : List Bool) : List Bool :=
  mapIdxFrom (fun j x => if a ≤ j ∧ j < b then false else x) 0 idx

/-- The inner loop of the rollback step (`main.py` lines 509-512):
`start = 0; for end in done: index[start : min(end, start+k+1)] = False;
start = end`.  Zeroes the first `k+1` positions of every trajectory. -/
def zeroHeadsAux (k : ℕ) : ℕ → List ℕ → List Bool → List Bool
  | _, [], idx => idx
  | s, e :: rest, idx => zeroHeadsAux k e rest (setFalseSlice s (min e (s + k + 1)) idx)

def zeroHeads (k : ℕ) (score : List Bool) (done : List ℕ) : List Bool :=
  zeroHeadsAux k 0 done score

/-- Position `p` lies in one of the slices `[start, min(end, start+k+1))`
zeroed by `zeroHeadsAux` when run from start `s` over the anchor list. -/
def CoversAux (k : ℕ) : ℕ → List ℕ → ℕ → Prop
  | _, [], _ => False
  | s, e :: rest, p => (s ≤ p ∧ p < min e (s + k + 1)) ∨ CoversAux k e rest p

/-- `mask[:-(k+1)] |= index[k+1:]` (`main.py` line 513): position `i` of the
mask picks up the index bit of the transition `k+1` steps ahead, for every
`i` with `i + k + 1 < len(mask)`. -/
def orShift (mask idx : List Bool) (k : ℕ) : List Bool :=
  mapIdxFrom (fun i m => if i + (k + 1) < mask.length then m || idx.getD (i + (k + 1)) false else m)
    0 mask

/-- `weight[mask & (squeeze(weight) < weight_decay), :] = weight_decay`
(`main.py` line 514): raise to `wd` exactly the weights below `wd` at
retained positions. -/
def updateWeights (w : List ℚ) (mask : List Bool) (wd : ℚ) : List ℚ :=
  mapIdxFrom (fun j x => if mask.getD j false && decide (x < wd) then wd else x) 0 w

/-- Mutable state of the rollback loop: the retention mask and the
per-transition weights. -/
structure SelState where
  mask : List Bool
  weight : List ℚ
deriving Repr

/-- One iteration of the rollback loop (`main.py` lines 508-514) at rollback
depth `k` with current decay value `wd`.  `score` is the loop-invariant bool
tensor `discriminator(state, action) >= bar` recomputed verbatim by the
source on each iteration. -/
def rollbackStep (score : List Bool) (done : List ℕ) (k : ℕ) (wd : ℚ)
    (st : SelState) : SelState :=
  let idx := zeroHeads k score done
  let m := orShift st.mask idx k
  { mask := m, weight := updateWeights st.weight m wd }

/-- `for k in range(0, rollback)` with the running
`weight_decay = weight_init * decay ** k` (multiplied by `decay` at the end
of each iteration).  The list argument carries the remaining values of `k`. -/
def selectLoop (score : List Bool) (done : List ℕ) (decay : ℚ) :
    List ℕ → ℚ → SelState → SelState
  | [], _, st => st
  | k :: ks, wd, st => selectLoop score done decay ks (wd * decay) (rollbackStep score done k wd st)

/-- Trajectory boundary anchors (`main.py` line 499):
`torch.where((not_done == 0) | (timeout == 1))[0] + 1`, the indices one past
each boundary transition, in increasing order. -/
def boundaryAnchors (not_done timeout : List ℚ) : List ℕ :=
  ((List.range not_done.length).filter
    (fun j => not_done.getD j 1 = 0 ∨ timeout.getD j 0 = 1)).map (· + 1)

/-- The body of `Model.select_data` after the discriminator scores of the
next states are available (`main.py` lines 496-525).  `dNext` stands for the
output the call on line 496 attempts to produce (see `select_data` for that
call itself).  Everything downstream is translated directly:
the base mask, the `not_done[-1] = 0` anchor, the boundary list, the
`weight -= 1` reset, the rollback loop, and the final boolean-mask filtering
of every column except `timeout` (the source filters `state`, `action`,
`next_state`, `reward`, `not_done`, `flag`, `weight` only). -/
def selectDataCore (d : S → A → ℚ) (dNext : List ℚ) (buf : ReplayBuffer S A)
    (bar : ℚ) (rollback : ℕ) (decay weight_init : ℚ) : ReplayBuffer S A :=
  let mask0 : List Bool := dNext.map (fun x => decide (bar ≤ x))
  let not_done1 := setLast buf.not_done 0
  let done := boundaryAnchors not_done1 buf.timeout
  let score : List Bool := (buf.state.zip buf.action).map (fun p => decide (bar ≤ d p.1 p.2))
  let w0 := buf.weight.map (fun w => w - 1)
  let fin := selectLoop score done decay (List.range rollback) weight_init
    { mask := mask0, weight := w0 }
  { buf with
    state := maskFilter fin.mask buf.state
    action := maskFilter fin.mask buf.action
    next_state := maskFilter fin.mask buf.next_state
    reward := maskFilter fin.mask buf.reward
    not_done := maskFilter fin.mask not_done1
    flag := maskFilter fin.mask buf.flag
    weight := maskFilter fin.mask fin.weight
    size := (maskFilter fin.mask buf.state).length }

/-- Positional arguments of a call to the discriminator module. -/
inductive DiscArg (S A : Type) where
  | states (xs : List S)
  | actions (xs : List A)

/-- Python call semantics for `Discriminator.forward(self, state, action)`:
the module applied to exactly a state batch and an action batch scores the
rows pairwise; any other argument list raises `TypeError` because `forward`
has two required positional parameters and no defaults. -/
def discriminatorCall (d : S → A → ℚ) : List (DiscArg S A) → Except String (List ℚ)
  | [DiscArg.states s, DiscArg.actions a] => Except.ok ((s.zip a).map (fun p => d p.1 p.2))
  | _ => Except.error "TypeError: forward() missing 1 required positional argument: action"

/-- `Model.select_data` (`main.py` lines 493-525).  Line 496 evaluates
`self.discriminator(next_state)` — a single-argument call of the
two-argument `Discriminator.forward` — and the rest of the method consumes
its result. -/
def select_data (d : S → A → ℚ) (buf : ReplayBuffer S A) (bar : ℚ)
    (rollback : ℕ) (decay weight_init : ℚ) : Except String (ReplayBuffer S A) := do
  let dNext ← discriminatorCall d [DiscArg.states buf.next_state]
  Except.ok (selectDataCore d dNext buf bar rollback decay weight_init)

/-! ### Trajectory splitting (`dataset_split_expert` / `dataset_m_trajs`,
`main.py` lines 145-278) -/

/-- A flat transition table as loaded from the benchmark cache. -/
structure RawDataset (S A : Type) where
  observations : List S
  actions : List A
  rewards : List ℚ
  terminals : List Bool
  timeouts : List Bool
deriving Repr

/-- One transition as accumulated by the segmentation loops. -/
structure Step (S A : Type) where
  obs : S
  next_obs : S
  act : A
  rew : ℚ
  done : Bool
  timeout : Bool
deriving Repr

/-- The segmentation loop shared verbatim by `dataset_split_expert` and
`dataset_m_trajs` (`main.py` lines 147-172 and 227-252): walk transitions
`0 .. n-2`, append each to the current trajectory, and close the trajectory
whenever `timeouts[i] | terminals[i]` (with `terminate_on_end=False`, the
boundary transition stays in its trajectory and a fresh, possibly empty,
trajectory is opened).  The trailing in-progress trajectory is part of the
resulting list, exactly as the source's `obs_traj` list (the per-trajectory
`return_traj` sums are dead values and are not modelled). -/
def segmentTrajs [Inhabited S] [Inhabited A] (ds : RawDataset S A) :
    List (List (Step S A)) :=
  let n := ds.rewards.length
  let f := fun (acc : List (List (Step S A)) × List (Step S A)) (i : ℕ) =>
    let tr : Step S A :=
      { obs := ds.observations.getD i default
        next_obs := ds.observations.getD (i + 1) default
        act := ds.actions.getD i default
        rew := ds.rewards.getD i 0
        done := ds.terminals.getD i false
        timeout := ds.timeouts.getD i false }
    let cur := acc.2 ++ [tr]
    if ds.timeouts.getD i false || ds.terminals.getD i false then
      (acc.1 ++ [cur], [])
    else
      (acc.1, cur)
  let fin := (List.range (n - 1)).foldl f ([], [])
  fin.1 ++ [fin.2]

/-- A by-column dataset assembled from selected trajectories. -/
structure TrajDataset (S A : Type) where
  observations : List S
  actions : List A
  next_observations : List S
  rewards : List ℚ
  terminals : List Bool
  timeouts : List Bool
deriving Repr

/-- `np.concatenate(trajectories, 0)`: raises `ValueError` on an empty input
list, or when a `(0,)`-shaped empty member meets a 2-D member (the vector
columns are concatenated first by both callers, so this is the error
behaviour that decides success).  Otherwise it is list concatenation. -/
def concat_trajectories (ts : List (List α)) : Except String (List α) :=
  if ts.isEmpty then
    Except.error "ValueError: need at least one array to concatenate"
  else if (ts.any (fun t => t.isEmpty)) && (ts.any (fun t => !t.isEmpty)) then
    Except.error "ValueError: all the input arrays must have same number of dimensions"
  else
    Except.ok ts.flatten

/-- Assemble the six columns from a list of trajectories (the dict literals
at `main.py` lines 203-219 and 271-278; the columns are concatenated in
source order, so the first failing concatenation decides the error). -/
def buildTrajDataset (ts : List (List (Step S A))) : Except String (TrajDataset S A) := do
  let obs ← concat_trajectories (ts.map (fun t => t.map Step.obs))
  let acts ← concat_trajectories (ts.map (fun t => t.map Step.act))
  let next_obs ← concat_trajectories (ts.map (fun t => t.map Step.next_obs))
  let rews ← concat_trajectories (ts.map (fun t => t.map Step.rew))
  let dones ← concat_trajectories (ts.map (fun t => t.map Step.done))
  let touts ← concat_trajectories (ts.map (fun t => t.map Step.timeout))
  Except.ok
    { observations := obs, actions := acts, next_observations := next_obs,
      rewards := rews, terminals := dones, timeouts := touts }

/-- `dataset_split_expert(dataset, split_x, exp_num)` (`main.py` lines
145-221).  `inds_succ = inds_all[:exp_num]` is a Python slice: it clips to
the available trajectories instead of checking bounds.  `inds_s` is the
slice `inds_succ[-split_x:]` when `split_x > 0` and `[]` otherwise, and
`inds_e = list(set(inds_succ) - set(inds_s))` — for the small consecutive
ints produced by `range`, CPython set iteration is in increasing order, so
the difference keeps the ascending order of `inds_succ`.  `dataset_s` is
`{}` (here `none`) when no decoy trajectories are selected. -/
def dataset_split_expert [Inhabited S] [Inhabited A] (ds : RawDataset S A)
    (split_x exp_num : ℕ) :
    Except String (TrajDataset S A × Option (TrajDataset S A)) := do
  let trajs := segmentTrajs ds
  let inds_all := List.range trajs.length
  let inds_succ := inds_all.take exp_num
  let inds_s : List ℕ := if split_x > 0 then inds_succ.drop (inds_succ.length - split_x) else []
  let inds_e := inds_succ.filter (fun i => i ∉ inds_s)
  let trajs_e := inds_e.map (fun i => trajs.getD i [])
  let trajs_s := inds_s.map (fun i => trajs.getD i [])
  let dataset_e ← buildTrajDataset trajs_e
  if trajs_s.isEmpty then
    Except.ok (dataset_e, none)
  else do
    let dataset_s ← buildTrajDataset trajs_s
    Except.ok (dataset_e, some dataset_s)

/-- `dataset_m_trajs(dataset, m)` (`main.py` lines 225-278): the same
segmentation, then the Python slice `inds_all[:m]` — again clipping, never
raising — and a single assembled dataset. -/
def dataset_m_trajs [Inhabited S] [Inhabited A] (ds : RawDataset S A) (m : ℕ) :
    Except String (TrajDataset S A) := do
  let trajs := segmentTrajs ds
  let inds := (List.range trajs.length).take m
  buildTrajDataset (inds.map (fun i => trajs.getD i []))

/-! ### Discriminator network and training losses (`main.py` lines 383-397,
457-460, 467-491, 527-559)

Network evaluation and the losses involve `exp`, `log` and `sigmoid`, so
this part of the embedding lives over `ℝ`. -/

/-- Dot product of a weight row with an input vector. -/
noncomputable def dotR (w x : List ℝ) : ℝ :=
  ((w.zip x).map (fun p => p.1 * p.2)).sum

/-- An `nn.Linear` layer: one weight row and one bias per output unit. -/
structure LinearLayer where
  weight : List (List ℝ)
  bias : List ℝ

noncomputable def LinearLayer.apply (L : LinearLayer) (x : List ℝ) : List ℝ :=
  (L.weight.zip L.bias).map (fun wb => dotR wb.1 x + wb.2)

noncomputable def relu (x : ℝ) : ℝ := max x 0

noncomputable def sigmoid (x : ℝ) : ℝ := 1 / (1 + Real.exp (-x))

/-- `torch.clip(x, lo, hi)`. -/
noncomputable def clip (x lo hi : ℝ) : ℝ := min (max x lo) hi

/-- The discriminator's three fully connected layers
(`main.py` lines 383-389). -/
structure Discriminator where
  fc1 : LinearLayer
  fc2 : LinearLayer
  fc3 : LinearLayer

/-- `Discriminator.forward(state, action)` (`main.py` lines 391-397):
concatenate state and action, two relu layers, the scalar head, a sigmoid,
and an unconditional clip to `[0.1, 0.9]`. -/
noncomputable def Discriminator.forward (D : Discriminator) (state action : List ℝ) : ℝ :=
  let state_action := state ++ action
  let d1 := (D.fc1.apply state_action).map relu
  let d2 := (D.fc2.apply d1).map relu
  let d3 := (D.fc3.apply d2).headI
  clip (sigmoid d3) (1 / 10) (9 / 10)

/-- `torch.mean` of a batch of scalars. -/
noncomputable def tmean (v : Fin n → ℝ) : ℝ := (∑ i, v i) / n

/-- The per-step discriminator loss (`main.py` lines 476-483) as a function
of the clipped scores `d_e`, `d_s` of the two minibatches: with
`no_pu` the BCE form `mean((-log d_e) + (-log (1 - d_s)))`, otherwise the
PU form with `d_loss_s = -log(1 - d_s) / eta + log(1 - d_e)`. -/
noncomputable def d_loss (no_pu : Bool) (eta : ℝ) (d_e d_s : Fin n → ℝ) : ℝ :=
  if no_pu then
    let d_loss_e := fun i => -Real.log (d_e i)
    let d_loss_s := fun i => -Real.log (1 - d_s i)
    tmean (fun i => d_loss_e i + d_loss_s i)
  else
    let d_loss_e := fun i => -Real.log (d_e i)
    let d_loss_s := fun i => (-Real.log (1 - d_s i)) / eta + Real.log (1 - d_e i)
    tmean (fun i => d_loss_e i + d_loss_s i)

/-- `Model.alpha_and_alpha_loss` (`main.py` lines 457-460): returns
`(alpha, alpha_loss)` where `alpha = log_alpha().exp()` and
`alpha_loss = log_alpha().exp() * (mean(log_pi) + epsilon - mean(log_pi_e))`
(the `.detach()` does not change the value). -/
noncomputable def alpha_and_alpha_loss (log_alpha epsilon : ℝ)
    (log_pi log_pi_e : Fin n → ℝ) : ℝ × ℝ :=
  (Real.exp log_alpha,
   Real.exp log_alpha * (tmean log_pi + epsilon - tmean log_pi_e))

/-- `torch.mean` of a 2-D tensor. -/
noncomputable def tmean2 (M : Fin m → Fin n → ℝ) : ℝ :=
  (∑ i, ∑ j, M i j) / (m * n)

/-- PyTorch broadcasting of `x * w` for `x` of shape `(n,)` and `w` of shape
`(m, 1)`: the shapes right-align to `(1, n)` and `(m, 1)` and broadcast to
the `(m, n)` outer product `x[j] * w[i]`. -/
noncomputable def broadcastMulVecCol (x : Fin n → ℝ) (w : Fin m → ℝ) :
    Fin m → Fin n → ℝ :=
  fun i j => x j * w i

/-- The policy loss of `Model.train_policy` (`main.py` line 552):
`torch.mean(-torch.sum(log_pi_s, 1) * weight_s) + alpha * torch.mean(-torch.sum(log_pi_e, 1))`.
`-torch.sum(log_pi_s, 1)` has shape `(b,)` while `weight_s` (a sampled
buffer column) has shape `(b, 1)`, so their product broadcasts to `(b, b)`
before the mean. -/
noncomputable def train_policy_p_loss (alpha : ℝ)
    (log_pi_s log_pi_e : Fin b → Fin da → ℝ) (weight_s : Fin b → ℝ) : ℝ :=
  tmean2 (broadcastMulVecCol (fun i => -(∑ dd, log_pi_s i dd)) weight_s)
    + alpha * tmean (fun i => -(∑ dd, log_pi_e i dd))

/-- Modelled from the spec: the policy loss the specification describes,
`mean(-sum(log_pi_s, dim) * weight_s) - alpha * mean(sum(log_pi_e, dim))`
with the product taken per sample. -/
noncomputable def p_loss_spec (alpha : ℝ)
    (log_pi_s log_pi_e : Fin b → Fin da → ℝ) (weight_s : Fin b → ℝ) : ℝ :=
  tmean (fun i => -(∑ dd, log_pi_s i dd) * weight_s i)
    - alpha * tmean (fun i => ∑ dd, log_pi_e i dd)

/-! ### Concrete scenarios used by the counterexamples and witnesses -/

/-- A converted `D_s` buffer holding one 3-step trajectory
(`convert_d4rl` output: `not_done = 1 - terminals`, unit weights). -/
def buf3 : ReplayBuffer ℚ ℚ where
  max_size := 1000000
  ptr := 0
  size := 3
  state := [0, 1, 2]
  action := [0, 0, 0]
  next_state := [1, 2, 3]
  reward := [0, 0, 0]
  not_done := [1, 1, 0]
  flag := [0, 0, 0]
  weight := [1, 1, 1]
  timeout := [0, 0, 0]

/-- A discriminator score function under which only the last transition of
`buf3` passes `bar = 1/2`: state `2` (and, via `dNext3`, its next state)
scores `0.9`, everything else `0.2`. -/
def dLast : ℚ → ℚ → ℚ := fun s _ => if s = 2 then 9 / 10 else 2 / 10

/-- The next-state scores of `buf3` under the same discriminator: only the
last transition's outcome is expert-like. -/
def dNext3 : List ℚ := [2 / 10, 2 / 10, 9 / 10]

/-- A score function under which no `(state, action)` pair passes
`bar = 1/2` (the base mask alone decides retention). -/
def dNone : ℚ → ℚ → ℚ := fun _ _ => 2 / 10

/-- A 3-transition raw dataset forming a single trajectory (the terminal on
the last row is never reached by the segmentation loop, which stops at
`n - 2`). -/
def ds3 : RawDataset ℚ ℚ where
  observations := [0, 1, 2]
  actions := [0, 0, 0]
  rewards := [0, 0, 0]
  terminals := [false, false, true]
  timeouts := [false, false, false]

end Ollie

/-! ## Helper lemmas -/

namespace Ollie

theorem mapIdxFrom_length (f : ℕ → α → α) (s : ℕ) (l : List α) :
    (mapIdxFrom f s l).length = l.length := by
  induction l generalizing s with
  | nil => rfl
  | cons x xs ih => simp [mapIdxFrom, ih]

theorem mapIdxFrom_getD (f : ℕ → α → α) (s p : ℕ) (l : List α) (d : α)
    (h : p < l.length) :
    (mapIdxFrom f s l).getD p d = f (s + p) (l.getD p d) := by
  induction l generalizing s p with
  | nil => simp at h
  | cons x xs ih =>
    cases p with
    | zero => simp [mapIdxFrom]
    | succ q =>
      simp only [mapIdxFrom, List.getD_cons_succ]
      rw [ih (s + 1) q (by simpa using Nat.lt_of_succ_lt_succ h)]
      congr 1
      omega

theorem mapIdxFrom_getD_of_le (f : ℕ → α → α) (s p : ℕ) (l : List α) (d : α)
    (h : l.length ≤ p) :
    (mapIdxFrom f s l).getD p d = d := by
  apply List.getD_eq_default
  rw [mapIdxFrom_length]; exact h

theorem maskFilter_length_congr (mask : List Bool) (l₁ : List α) (l₂ : List β)
    (h : l₁.length = l₂.length) :
    (maskFilter mask l₁).length = (maskFilter mask l₂).length := by
  induction mask generalizing l₁ l₂ with
  | nil => cases l₁ <;> cases l₂ <;> rfl
  | cons b ms ih =>
    cases l₁ with
    | nil =>
      cases l₂ with
      | nil => cases b <;> rfl
      | cons y ys => simp at h
    | cons x xs =>
      cases l₂ with
      | nil => simp at h
      | cons y ys =>
        cases b <;> simp [maskFilter, ih xs ys (by simpa using h)]

theorem setLast_length (l : List α) (v : α) : (setLast l v).length = l.length := by
  induction l with
  | nil => rfl
  | cons x xs ih =>
    cases xs with
    | nil => rfl
    | cons y ys => simpa [setLast] using ih

theorem setFalseSlice_getD (a b p : ℕ) (idx : List Bool) :
    (setFalseSlice a b idx).getD p false
      = if a ≤ p ∧ p < b then false else idx.getD p false := by
  by_cases h : p < idx.length
  · simpa [setFalseSlice] using mapIdxFrom_getD _ 0 p idx false h
  · push_neg at h
    rw [setFalseSlice, mapIdxFrom_getD_of_le _ _ _ _ _ h,
      List.getD_eq_default _ _ h]
    split <;> rfl

theorem zeroHeadsAux_false_stable (k : ℕ) (ds : List ℕ) :
    ∀ (s p : ℕ) (idx : List Bool), idx.getD p false = false →
      (zeroHeadsAux k s ds idx).getD p false = false := by
  induction ds with
  | nil => intro s p idx h; exact h
  | cons e rest ih =>
    intro s p idx h
    refine ih e p _ ?_
    rw [setFalseSlice_getD]
    split
    · rfl
    · exact h

theorem zeroHeadsAux_getD_of_covers (k : ℕ) (ds : List ℕ) :
    ∀ (s p : ℕ) (idx : List Bool), CoversAux k s ds p →
      (zeroHeadsAux k s ds idx).getD p false = false := by
  induction ds with
  | nil => intro s p idx h; exact absurd h (by simp [CoversAux])
  | cons e rest ih =>
    intro s p idx h
    rcases h with hhead | htail
    · show (zeroHeadsAux k e rest (setFalseSlice s (min e (s + k + 1)) idx)).getD p false = false
      apply zeroHeadsAux_false_stable
      rw [setFalseSlice_getD, if_pos hhead]
    · exact ih e p _ htail

theorem covers_of_anchor (k i p : ℕ) (ds : List ℕ) :
    ∀ (s : ℕ), p = i + (k + 1) → s ≤ p →
      List.Pairwise (· < ·) (s :: ds) →
      ((∃ e ∈ ds, i < e ∧ e ≤ p) ∨ i < s) →
      (∃ f ∈ ds, p < f) →
      CoversAux k s ds p := by
  induction ds with
  | nil =>
    intro s _ _ _ _ hf
    rcases hf with ⟨f, hf, _⟩
    exact absurd hf (by simp)
  | cons d rest ih =>
    intro s hp hsp hpair hdisj hf
    by_cases hd : p < d
    · -- the slice starting at the current start covers p
      have his : i < s := by
        rcases hdisj with ⟨e, he, hie, hep⟩ | his
        · rcases List.mem_cons.mp he with rfl | her
          · omega
          · have hde : d < e := (List.pairwise_cons.mp (hpair.of_cons)).1 e her
            omega
        · exact his
      exact Or.inl ⟨hsp, lt_min hd (by omega)⟩
    · push_neg at hd
      refine Or.inr (ih d hp hd hpair.of_cons ?_ ?_)
      · rcases hdisj with ⟨e, he, hie, hep⟩ | his
        · rcases List.mem_cons.mp he with rfl | her
          · exact Or.inr hie
          · exact Or.inl ⟨e, her, hie, hep⟩
        · have hsd : s < d := (List.pairwise_cons.mp hpair).1 d (List.mem_cons_self d rest)
          exact Or.inr (by omega)
      · rcases hf with ⟨f, hfm, hpf⟩
        rcases List.mem_cons.mp hfm with rfl | hfr
        · omega
        · exact ⟨f, hfr, hpf⟩

theorem boundaryAnchors_pairwise (nd t : List ℚ) :
    List.Pairwise (· < ·) (0 :: boundaryAnchors nd t) := by
  rw [List.pairwise_cons]
  constructor
  · intro a ha
    rcases List.mem_map.mp ha with ⟨j, _, rfl⟩
    omega
  · exact ((List.pairwise_lt_range _).filter _).map _ (fun a b h => by omega)

theorem updateWeights_length (w : List ℚ) (mask : List Bool) (wd : ℚ) :
    (updateWeights w mask wd).length = w.length :=
  mapIdxFrom_length _ _ _

theorem updateWeights_getD_le (w : List ℚ) (mask : List Bool) (wd : ℚ) (j : ℕ) :
    w.getD j 0 ≤ (updateWeights w mask wd).getD j 0 := by
  by_cases h : j < w.length
  · rw [updateWeights, mapIdxFrom_getD _ 0 j w 0 h]
    split
    · next hc =>
      have := of_decide_eq_true (Bool.and_elim_right hc)
      exact le_of_lt this
    · exact le_refl _
  · push_neg at h
    rw [List.getD_eq_default _ _ h, updateWeights, mapIdxFrom_getD_of_le _ _ _ _ _ h]

theorem rollbackStep_weight_le (score : List Bool) (done : List ℕ) (k : ℕ)
    (wd : ℚ) (st : SelState) (j : ℕ) :
    st.weight.getD j 0 ≤ (rollbackStep score done k wd st).weight.getD j 0 :=
  updateWeights_getD_le _ _ _ _

theorem rollbackStep_weight_length (score : List Bool) (done : List ℕ) (k : ℕ)
    (wd : ℚ) (st : SelState) :
    (rollbackStep score done k wd st).weight.length = st.weight.length :=
  updateWeights_length _ _ _

theorem orShift_length (mask idx : List Bool) (k : ℕ) :
    (orShift mask idx k).length = mask.length :=
  mapIdxFrom_length _ _ _

theorem rollbackStep_mask_length (score : List Bool) (done : List ℕ) (k : ℕ)
    (wd : ℚ) (st : SelState) :
    (rollbackStep score done k wd st).mask.length = st.mask.length :=
  orShift_length _ _ _

theorem selectLoop_append (score : List Bool) (done : List ℕ) (decay : ℚ)
    (l₁ l₂ : List ℕ) :
    ∀ (wd : ℚ) (st : SelState),
      selectLoop score done decay (l₁ ++ l₂) wd st
        = selectLoop score done decay l₂ (wd * decay ^ l₁.length)
            (selectLoop score done decay l₁ wd st) := by
  induction l₁ with
  | nil => intro wd st; simp [selectLoop]
  | cons a l₁ ih =>
    intro wd st
    show selectLoop score done decay (l₁ ++ l₂) (wd * decay) (rollbackStep score done a wd st)
      = selectLoop score done decay l₂ (wd * decay ^ (l₁.length + 1))
          (selectLoop score done decay l₁ (wd * decay) (rollbackStep score done a wd st))
    rw [ih (wd * decay) (rollbackStep score done a wd st)]
    congr 1
    ring

theorem selectLoop_weight_le (score : List Bool) (done : List ℕ) (decay : ℚ)
    (ks : List ℕ) :
    ∀ (wd : ℚ) (st : SelState) (j : ℕ),
      st.weight.getD j 0 ≤ (selectLoop score done decay ks wd st).weight.getD j 0 := by
  induction ks with
  | nil => intro wd st j; exact le_refl _
  | cons k ks ih =>
    intro wd st j
    exact le_trans (rollbackStep_weight_le score done k wd st j)
      (ih (wd * decay) (rollbackStep score done k wd st) j)

theorem selectLoop_weight_length (score : List Bool) (done : List ℕ) (decay : ℚ)
    (ks : List ℕ) :
    ∀ (wd : ℚ) (st : SelState),
      (selectLoop score done decay ks wd st).weight.length = st.weight.length := by
  induction ks with
  | nil => intro wd st; rfl
  | cons k ks ih =>
    intro wd st
    rw [selectLoop, ih, rollbackStep_weight_length]

theorem selectLoop_mask_length (score : List Bool) (done : List ℕ) (decay : ℚ)
    (ks : List ℕ) :
    ∀ (wd : ℚ) (st : SelState),
      (selectLoop score done decay ks wd st).mask.length = st.mask.length := by
  induction ks with
  | nil => intro wd st; rfl
  | cons k ks ih =>
    intro wd st
    rw [selectLoop, ih, rollbackStep_mask_length]

theorem clip_bounds (x lo hi : ℝ) (h : lo ≤ hi) :
    lo ≤ clip x lo hi ∧ clip x lo hi ≤ hi :=
  ⟨le_min (le_max_right _ _) h, min_le_right _ _⟩

theorem except_bind_ok (a : α) (f : α → Except ε β) :
    (Except.ok a : Except ε α) >>= f = f a := rfl

theorem map_getD_range (l : List α) (d : α) :
    (List.range l.length).map (fun i => l.getD i d) = l := by
  apply List.ext_getElem (by simp)
  intro i h1 h2
  simp [List.getElem?_eq_getElem h2]

theorem concat_trajectories_ok {S A : Type} {β : Type} (ts : List (List (Step S A)))
    (f : Step S A → β) (h0 : ts ≠ []) (hne : ∀ t ∈ ts, t ≠ []) :
    concat_trajectories (ts.map (fun t => t.map f)) = Except.ok (ts.flatten.map f) := by
  rw [concat_trajectories, if_neg, if_neg]
  · rw [← List.map_flatten]
  · intro hcontra
    rw [Bool.and_eq_true] at hcontra
    rcases hcontra with ⟨h1, _⟩
    rw [List.any_eq_true] at h1
    rcases h1 with ⟨x, hx, hxe⟩
    rcases List.mem_map.mp hx with ⟨t, ht, rfl⟩
    rw [List.isEmpty_iff] at hxe
    exact hne t ht (by simpa using hxe)
  · simp [List.isEmpty_iff, h0]

theorem buildTrajDataset_ok {S A : Type} (ts : List (List (Step S A))) (h0 : ts ≠ [])
    (hne : ∀ t ∈ ts, t ≠ []) :
    buildTrajDataset ts = Except.ok
      { observations := ts.flatten.map Step.obs
        actions := ts.flatten.map Step.act
        next_observations := ts.flatten.map Step.next_obs
        rewards := ts.flatten.map Step.rew
        terminals := ts.flatten.map Step.done
        timeouts := ts.flatten.map Step.timeout } := by
  simp only [buildTrajDataset]
  rw [concat_trajectories_ok ts Step.obs h0 hne, except_bind_ok,
    concat_trajectories_ok ts Step.act h0 hne, except_bind_ok,
    concat_trajectories_ok ts Step.next_obs h0 hne, except_bind_ok,
    concat_trajectories_ok ts Step.rew h0 hne, except_bind_ok,
    concat_trajectories_ok ts Step.done h0 hne, except_bind_ok,
    concat_trajectories_ok ts Step.timeout h0 hne, except_bind_ok]

theorem segmentTrajs_ne_nil {S A : Type} [Inhabited S] [Inhabited A] (ds : RawDataset S A) :
    segmentTrajs ds ≠ [] := by
  simp [segmentTrajs]

end Ollie

/-! ## The claims -/

namespace Ollie

/-- Claim C1: each `train_discriminator` gradient step computes the loss
exactly as specified in both regimes: with `no_pu` the loss is
`mean(-log(d_e) - log(1-d_s))`, and in the default PU regime it is
`mean(-log(d_e) - log(1-d_s)/eta + log(1-d_e))`, where `d_e`, `d_s` are the
clipped discriminator outputs on the two minibatches. -/
theorem c1_train_discriminator_loss (n : ℕ) (D : Discriminator) (eta : ℝ)
    (state_e action_e state_s action_s : Fin n → List ℝ) :
    d_loss true eta (fun i => D.forward (state_e i) (action_e i))
        (fun i => D.forward (state_s i) (action_s i))
      = tmean (fun i => -Real.log (D.forward (state_e i) (action_e i))
          - Real.log (1 - D.forward (state_s i) (action_s i)))
    ∧ d_loss false eta (fun i => D.forward (state_e i) (action_e i))
        (fun i => D.forward (state_s i) (action_s i))
      = tmean (fun i => -Real.log (D.forward (state_e i) (action_e i))
          - Real.log (1 - D.forward (state_s i) (action_s i)) / eta
          + Real.log (1 - D.forward (state_e i) (action_e i))) := by
  constructor
  · have h : d_loss true eta (fun i => D.forward (state_e i) (action_e i))
        (fun i => D.forward (state_s i) (action_s i))
        = tmean (fun i => -Real.log (D.forward (state_e i) (action_e i))
            + -Real.log (1 - D.forward (state_s i) (action_s i))) := rfl
    rw [h]
    exact congrArg tmean (funext fun i => by ring)
  · have h : d_loss false eta (fun i => D.forward (state_e i) (action_e i))
        (fun i => D.forward (state_s i) (action_s i))
        = tmean (fun i => -Real.log (D.forward (state_e i) (action_e i))
            + ((-Real.log (1 - D.forward (state_s i) (action_s i))) / eta
              + Real.log (1 - D.forward (state_e i) (action_e i)))) := rfl
    rw [h]
    exact congrArg tmean (funext fun i => by ring)

/-- Claim C2 (refuted): `select_data` can never evaluate the discriminator
on the next states — line 496 calls the two-parameter
`Discriminator.forward` with the single argument `next_state`, so every
invocation of `select_data` raises `TypeError` instead of building the base
retention mask. -/
theorem c2_select_data_type_error {S A : Type} (d : S → A → ℚ)
    (buf : ReplayBuffer S A) (bar : ℚ) (rollback : ℕ) (decay weight_init : ℚ) :
    select_data d buf bar rollback decay weight_init
      = Except.error "TypeError: forward() missing 1 required positional argument: action" :=
  rfl

/-- Claim C4, counterexample: on a buffer holding one 3-step trajectory in
which only the last transition passes `bar = 1/2` (both by its
`(state, action)` score and by its next-state score), the selection body
with `rollback = 2`, `decay = 1/2`, `weight_init = 1` does NOT produce the
final weights `[1/2, 1/2, 1]` the claim expects. -/
theorem c4_counterexample :
    (selectDataCore dLast dNext3 buf3 (1 / 2) 2 (1 / 2) 1).weight ≠ [1 / 2, 1 / 2, 1] := by
  norm_num [selectDataCore, dLast, dNext3, buf3, boundaryAnchors, setLast, selectLoop,
    rollbackStep, zeroHeads, zeroHeadsAux, setFalseSlice, orShift, updateWeights,
    mapIdxFrom, maskFilter, List.range_succ]

/-- Claim C4, amended: that scenario retains all three transitions and
yields final weights `[1/2, 1, 1]` — the transition one step back is pulled
in at rollback iteration `k = 0` and receives
`weight_init * decay ^ 0 = 1`, while the transition two steps back is pulled
in at `k = 1` and receives `1/2`; the last transition keeps weight `1` from
the `k = 0` pass over the base mask. -/
theorem c4_amended :
    (selectDataCore dLast dNext3 buf3 (1 / 2) 2 (1 / 2) 1).weight = [1 / 2, 1, 1]
    ∧ (selectDataCore dLast dNext3 buf3 (1 / 2) 2 (1 / 2) 1).size = 3 := by
  norm_num [selectDataCore, dLast, dNext3, buf3, boundaryAnchors, setLast, selectLoop,
    rollbackStep, zeroHeads, zeroHeadsAux, setFalseSlice, orShift, updateWeights,
    mapIdxFrom, maskFilter, List.range_succ]

/-- Claim C5: across the rollback loop the per-transition weights are
monotonically non-decreasing — for every transition `j`, every iteration
count `k`, every score mask (hence every discriminator) and every boundary
list, the weight after `k + 1` iterations is at least the weight after `k`
iterations (line 514 only overwrites a weight with the current decay value
when it is strictly below it). -/
theorem c5_weights_monotone (score : List Bool) (done : List ℕ)
    (decay weight_init : ℚ) (st : SelState) (k j : ℕ) :
    (selectLoop score done decay (List.range k) weight_init st).weight.getD j 0
      ≤ (selectLoop score done decay (List.range (k + 1)) weight_init st).weight.getD j 0 := by
  rw [List.range_succ, selectLoop_append]
  exact selectLoop_weight_le score done decay [k] _ _ j

/-- Claim C7 (code bug, evaluation at the failing input): with batch size 2,
one action dimension, `alpha = 1`, per-sample NLLs `[0, 1]` on the `D_s`
minibatch, weights `[1, 0]`, and zero log-densities on the `D_e` minibatch,
the policy loss the code computes is `1/4` — the `(b,)`-shaped NLL vector
broadcasts against the `(b,1)`-shaped weight column into a `(b,b)` outer
product — whereas the per-sample weighted loss the claim describes is `0`. -/
theorem c7_policy_loss_broadcast_eval :
    train_policy_p_loss 1 (![![0], ![-1]] : Fin 2 → Fin 1 → ℝ)
        (![![0], ![0]] : Fin 2 → Fin 1 → ℝ) (![1, 0] : Fin 2 → ℝ) = 1 / 4
    ∧ p_loss_spec 1 (![![0], ![-1]] : Fin 2 → Fin 1 → ℝ)
        (![![0], ![0]] : Fin 2 → Fin 1 → ℝ) (![1, 0] : Fin 2 → ℝ) = 0 := by
  constructor <;>
    norm_num [train_policy_p_loss, p_loss_spec, tmean, tmean2, broadcastMulVecCol,
      Fin.sum_univ_two, Fin.sum_univ_one]

/-- Claim C3, counterexample: the "every column has length `size`"
invariant fails at construction — `__init__` pre-allocates columns of
length `max_size` (here 5) while `size = 0` — and fails again after the
selection body: on a 3-transition buffer whose retention mask keeps only
the last transition, the `timeout` column keeps length 3 while `size`
shrinks to 1, because the filtering block omits `timeout`. -/
theorem c3_counterexample :
    (ReplayBuffer.init 2 1 5).state.length ≠ (ReplayBuffer.init 2 1 5).size
    ∧ (selectDataCore dNone dNext3 buf3 (1 / 2) 1 (1 / 2) 1).timeout.length
        ≠ (selectDataCore dNone dNext3 buf3 (1 / 2) 1 (1 / 2) 1).size := by
  norm_num [ReplayBuffer.init, selectDataCore, dNone, dNext3, buf3, boundaryAnchors, setLast,
    selectLoop, rollbackStep, zeroHeads, zeroHeadsAux, setFalseSlice, orShift, updateWeights,
    mapIdxFrom, maskFilter, List.range_succ]

/-- Claim C3, amended: `__init__` allocates every column at length
`max_size` with `size = 0` (so the claimed invariant does not hold at
construction); the selection body filters the seven columns `state`,
`action`, `next_state`, `reward`, `not_done`, `flag`, `weight` down to the
retained count, which becomes the new `size`, but leaves the `timeout`
column untouched at its previous value. -/
theorem c3_amended :
    (∀ (sd ad ms : ℕ),
      (ReplayBuffer.init sd ad ms).state.length = ms
      ∧ (ReplayBuffer.init sd ad ms).action.length = ms
      ∧ (ReplayBuffer.init sd ad ms).next_state.length = ms
      ∧ (ReplayBuffer.init sd ad ms).reward.length = ms
      ∧ (ReplayBuffer.init sd ad ms).not_done.length = ms
      ∧ (ReplayBuffer.init sd ad ms).flag.length = ms
      ∧ (ReplayBuffer.init sd ad ms).weight.length = ms
      ∧ (ReplayBuffer.init sd ad ms).timeout.length = ms
      ∧ (ReplayBuffer.init sd ad ms).size = 0)
    ∧ (∀ (S A : Type) (d : S → A → ℚ) (dNext : List ℚ) (buf : ReplayBuffer S A)
        (bar : ℚ) (rollback : ℕ) (decay weight_init : ℚ),
        buf.action.length = buf.state.length →
        buf.next_state.length = buf.state.length →
        buf.reward.length = buf.state.length →
        buf.not_done.length = buf.state.length →
        buf.flag.length = buf.state.length →
        buf.weight.length = buf.state.length →
        ((selectDataCore d dNext buf bar rollback decay weight_init).state.length
            = (selectDataCore d dNext buf bar rollback decay weight_init).size
        ∧ (selectDataCore d dNext buf bar rollback decay weight_init).action.length
            = (selectDataCore d dNext buf bar rollback decay weight_init).size
        ∧ (selectDataCore d dNext buf bar rollback decay weight_init).next_state.length
            = (selectDataCore d dNext buf bar rollback decay weight_init).size
        ∧ (selectDataCore d dNext buf bar rollback decay weight_init).reward.length
            = (selectDataCore d dNext buf bar rollback decay weight_init).size
        ∧ (selectDataCore d dNext buf bar rollback decay weight_init).not_done.length
            = (selectDataCore d dNext buf bar rollback decay weight_init).size
        ∧ (selectDataCore d dNext buf bar rollback decay weight_init).flag.length
            = (selectDataCore d dNext buf bar rollback decay weight_init).size
        ∧ (selectDataCore d dNext buf bar rollback decay weight_init).weight.length
            = (selectDataCore d dNext buf bar rollback decay weight_init).size
        ∧ (selectDataCore d dNext buf bar rollback decay weight_init).timeout
            = buf.timeout)) := by
  constructor
  · intro sd ad ms
    simp [ReplayBuffer.init]
  · intro S A d dNext buf bar rollback decay weight_init hA hN hR hD hF hW
    simp only [selectDataCore]
    refine ⟨trivial, ?_, ?_, ?_, ?_, ?_, ?_, trivial⟩
    · exact maskFilter_length_congr _ _ _ hA
    · exact maskFilter_length_congr _ _ _ hN
    · exact maskFilter_length_congr _ _ _ hR
    · exact maskFilter_length_congr _ _ _ (by rw [setLast_length]; exact hD)
    · exact maskFilter_length_congr _ _ _ hF
    · refine maskFilter_length_congr _ _ _ ?_
      rw [selectLoop_weight_length]
      simpa using hW

/-- Claim C3, amended, witness: the amended statement evaluated on the
concrete 3-transition scenario and on `__init__(2, 1, 5)`. -/
theorem c3_amended_witness :
    ((ReplayBuffer.init 2 1 5).size = 0 ∧ (ReplayBuffer.init 2 1 5).state.length = 5)
    ∧ ((selectDataCore dNone dNext3 buf3 (1 / 2) 1 (1 / 2) 1).weight.length
        = (selectDataCore dNone dNext3 buf3 (1 / 2) 1 (1 / 2) 1).size
      ∧ (selectDataCore dNone dNext3 buf3 (1 / 2) 1 (1 / 2) 1).timeout = buf3.timeout) :=
  ⟨⟨(c3_amended.1 2 1 5).2.2.2.2.2.2.2.2, (c3_amended.1 2 1 5).1⟩,
   ⟨(c3_amended.2 ℚ ℚ dNone dNext3 buf3 (1 / 2) 1 (1 / 2) 1
       rfl rfl rfl rfl rfl rfl).2.2.2.2.2.2.1,
    (c3_amended.2 ℚ ℚ dNone dNext3 buf3 (1 / 2) 1 (1 / 2) 1
       rfl rfl rfl rfl rfl rfl).2.2.2.2.2.2.2⟩⟩

/-- Claim C6: boundary safety of the rollback masks.  For every rollback
depth `k`, transition `i` that lies within `k + 1` steps of a trajectory
end (there is a boundary anchor `e` with `i < e ≤ i + (k+1)`), every score
mask (hence every discriminator) and every current retention mask, the
zeroed shifted index is `false` at `i + (k+1)` and the OR-update leaves the
mask at `i` unchanged — a transition is never retained on account of a
transition in a following trajectory.  Anchor lists produced by line 499
are strictly increasing and positive (`boundaryAnchors_pairwise`), which is
the `hpair` hypothesis; `hf` holds for every in-range `i + (k+1)` because
`not_done[-1] = 0` puts the buffer length itself in the anchor list. -/
theorem c6_boundary_safety (mask score : List Bool) (done : List ℕ) (k i : ℕ)
    (hpair : List.Pairwise (· < ·) (0 :: done))
    (he : ∃ e ∈ done, i < e ∧ e ≤ i + (k + 1))
    (hf : ∃ f ∈ done, i + (k + 1) < f) :
    (zeroHeads k score done).getD (i + (k + 1)) false = false
    ∧ (orShift mask (zeroHeads k score done) k).getD i false = mask.getD i false := by
  have hcov : CoversAux k 0 done (i + (k + 1)) :=
    covers_of_anchor k i (i + (k + 1)) done 0 rfl (Nat.zero_le _) hpair (Or.inl he) hf
  have hz : (zeroHeads k score done).getD (i + (k + 1)) false = false :=
    zeroHeadsAux_getD_of_covers k done 0 _ score hcov
  refine ⟨hz, ?_⟩
  by_cases hi : i < mask.length
  · rw [orShift, mapIdxFrom_getD _ 0 i mask false hi]
    simp only [Nat.zero_add]
    split
    · rw [hz, Bool.or_false]
    · rfl
  · push_neg at hi
    rw [orShift, mapIdxFrom_getD_of_le _ _ _ _ _ hi, List.getD_eq_default _ _ hi]

/-- Claim C6, witness: two trajectories `[0, 2)` and `[2, 4)` (anchors
`[2, 4]`), `k = 0`, `i = 1`: the last transition of the first trajectory is
not retained on account of transition 2, which opens the second
trajectory. -/
theorem c6_boundary_safety_witness :
    List.Pairwise (· < ·) (0 :: [2, 4])
    ∧ (∃ e ∈ [2, 4], 1 < e ∧ e ≤ 1 + (0 + 1))
    ∧ (∃ f ∈ [2, 4], 1 + (0 + 1) < f)
    ∧ ((zeroHeads 0 [true, true, true, true] [2, 4]).getD (1 + (0 + 1)) false = false
      ∧ (orShift [false, false, false, false]
            (zeroHeads 0 [true, true, true, true] [2, 4]) 0).getD 1 false
          = [false, false, false, false].getD 1 false) :=
  ⟨by decide, by decide, by decide,
   c6_boundary_safety [false, false, false, false] [true, true, true, true] [2, 4] 0 1
     (by decide) (by decide) (by decide)⟩

/-- Claim C10: `ReplayBuffer.sample` requires a non-empty buffer.  On a
freshly constructed buffer (`size = 0`) it fails for every batch size
because `torch.randint(0, 0, ...)` rejects the empty range; with
`size ≥ 1` it succeeds, returns exactly `batch_size` rows, and every row is
read from an index strictly below `size`. -/
theorem c10_sample_safety :
    (∀ (sd ad ms batch : ℕ) (rng : ℕ → ℕ), ∃ msg,
      (ReplayBuffer.init sd ad ms).sample batch rng = Except.error msg)
    ∧ (∀ (S A : Type) [Inhabited S] [Inhabited A] (b : ReplayBuffer S A)
        (batch : ℕ) (rng : ℕ → ℕ), 1 ≤ b.size →
        ∃ ind, torchRandint 0 b.size batch rng = Except.ok ind
          ∧ b.sample batch rng = Except.ok (ind.map b.row)
          ∧ ind.length = batch
          ∧ ∀ i ∈ ind, i < b.size) := by
  constructor
  · intro sd ad ms batch rng
    exact ⟨"RuntimeError: random_ expects from to be less than to", rfl⟩
  · intro S A _ _ b batch rng h
    have h0 : (0 : ℕ) < b.size := h
    refine ⟨(List.range batch).map (fun i => 0 + rng i % (b.size - 0)), ?_, ?_, by simp, ?_⟩
    · rw [torchRandint, if_pos h0]
    · rw [ReplayBuffer.sample, torchRandint, if_pos h0]
      rfl
    · intro i hi
      rcases List.mem_map.mp hi with ⟨j, _, rfl⟩
      simp only [Nat.sub_zero, Nat.zero_add]
      exact Nat.mod_lt (rng j) h0

/-- Claim C10, witness: sampling the 3-transition buffer with batch size 2
succeeds with in-range indices. -/
theorem c10_sample_safety_witness :
    1 ≤ buf3.size
    ∧ (∃ ind, torchRandint 0 buf3.size 2 id = Except.ok ind
        ∧ buf3.sample 2 id = Except.ok (ind.map buf3.row)
        ∧ ind.length = 2
        ∧ ∀ i ∈ ind, i < buf3.size) :=
  ⟨by decide, c10_sample_safety.2 ℚ ℚ buf3 2 id (by decide)⟩

/-- Claim C8, counterexample: on a dataset whose segmentation produces a
single trajectory, both `dataset_split_expert` with `exp_num = 5` and
`dataset_m_trajs` with `m = 5` succeed — Python's slice `[:5]` clips to the
available trajectories — rather than raising any out-of-range error. -/
theorem c8_counterexample :
    (segmentTrajs ds3).length = 1
    ∧ (dataset_split_expert ds3 0 5).isOk = true
    ∧ (dataset_m_trajs ds3 5).isOk = true := by
  norm_num [dataset_split_expert, dataset_m_trajs, segmentTrajs, ds3, buildTrajDataset,
    concat_trajectories, List.range_succ, Except.isOk, Except.toBool, Except.instMonad,
    Except.bind]

/-- Claim C8, amended: the trajectory-splitting operations perform no
bounds check — when the requested counts are at least the trajectory count
(and every segmented trajectory is nonempty, so that `np.concatenate`
accepts the columns), `dataset_split_expert` (with `split_x = 0`) and
`dataset_m_trajs` both return successfully, selecting all available
trajectories. -/
theorem c8_amended (ds : RawDataset ℚ ℚ) (exp_num m : ℕ)
    (hne : ∀ t ∈ segmentTrajs ds, t ≠ [])
    (he : (segmentTrajs ds).length ≤ exp_num)
    (hm : (segmentTrajs ds).length ≤ m) :
    dataset_split_expert ds 0 exp_num = Except.ok
      ({ observations := (segmentTrajs ds).flatten.map Step.obs
         actions := (segmentTrajs ds).flatten.map Step.act
         next_observations := (segmentTrajs ds).flatten.map Step.next_obs
         rewards := (segmentTrajs ds).flatten.map Step.rew
         terminals := (segmentTrajs ds).flatten.map Step.done
         timeouts := (segmentTrajs ds).flatten.map Step.timeout }, none)
    ∧ dataset_m_trajs ds m = Except.ok
      { observations := (segmentTrajs ds).flatten.map Step.obs
        actions := (segmentTrajs ds).flatten.map Step.act
        next_observations := (segmentTrajs ds).flatten.map Step.next_obs
        rewards := (segmentTrajs ds).flatten.map Step.rew
        terminals := (segmentTrajs ds).flatten.map Step.done
        timeouts := (segmentTrajs ds).flatten.map Step.timeout } := by
  constructor
  · simp only [dataset_split_expert]
    rw [List.take_of_length_le (by simpa using he)]
    simp only [gt_iff_lt, lt_irrefl, if_false]
    rw [show (List.range (segmentTrajs ds).length).filter
          (fun i => decide (i ∉ ([] : List ℕ)))
        = List.range (segmentTrajs ds).length by simp]
    rw [map_getD_range]
    rw [buildTrajDataset_ok _ (segmentTrajs_ne_nil ds) hne, except_bind_ok]
    rfl
  · simp only [dataset_m_trajs]
    rw [List.take_of_length_le (by simpa using hm)]
    rw [map_getD_range]
    exact buildTrajDataset_ok _ (segmentTrajs_ne_nil ds) hne

/-- Claim C8, amended, witness: the amended statement on the concrete
single-trajectory dataset with `exp_num = m = 5`. -/
theorem c8_amended_witness :
    (∀ t ∈ segmentTrajs ds3, t ≠ [])
    ∧ (segmentTrajs ds3).length ≤ 5
    ∧ dataset_split_expert ds3 0 5 = Except.ok
      ({ observations := (segmentTrajs ds3).flatten.map Step.obs
         actions := (segmentTrajs ds3).flatten.map Step.act
         next_observations := (segmentTrajs ds3).flatten.map Step.next_obs
         rewards := (segmentTrajs ds3).flatten.map Step.rew
         terminals := (segmentTrajs ds3).flatten.map Step.done
         timeouts := (segmentTrajs ds3).flatten.map Step.timeout }, none)
    ∧ dataset_m_trajs ds3 5 = Except.ok
      { observations := (segmentTrajs ds3).flatten.map Step.obs
        actions := (segmentTrajs ds3).flatten.map Step.act
        next_observations := (segmentTrajs ds3).flatten.map Step.next_obs
        rewards := (segmentTrajs ds3).flatten.map Step.rew
        terminals := (segmentTrajs ds3).flatten.map Step.done
        timeouts := (segmentTrajs ds3).flatten.map Step.timeout } := by
  have h1 : ∀ t ∈ segmentTrajs ds3, t ≠ [] := by
    norm_num [segmentTrajs, ds3, List.range_succ]
    exact List.cons_ne_nil _ _
  have h2 : (segmentTrajs ds3).length ≤ 5 := by
    norm_num [segmentTrajs, ds3, List.range_succ]
  exact ⟨h1, h2, (c8_amended ds3 5 5 h1 h2 h2).1, (c8_amended ds3 5 5 h1 h2 h2).2⟩

/-- Claim C9: for every parameter assignment and every state/action input,
the discriminator's output lies in `[0.1, 0.9]`; the clipping is
unconditional, so the PU loss terms can never hit `log 0`
(the output is never `0` and `1 - output` is never `0`). -/
theorem c9_discriminator_forward_range (D : Discriminator) (state action : List ℝ) :
    1 / 10 ≤ D.forward state action ∧ D.forward state action ≤ 9 / 10
      ∧ D.forward state action ≠ 0 ∧ D.forward state action ≠ 1 := by
  have h : 1 / 10 ≤ D.forward state action ∧ D.forward state action ≤ 9 / 10 := by
    simp only [Discriminator.forward]
    exact clip_bounds _ _ _ (by norm_num)
  exact ⟨h.1, h.2, ne_of_gt (lt_of_lt_of_le (by norm_num) h.1),
    ne_of_lt (lt_of_le_of_lt h.2 (by norm_num))⟩

end Ollie
